import Mathlib

/-!
Verification of the spotify-import pipeline (src/main.rs).

The program is embedded shallowly:
- metadata tags keep only the two fields the program reads (title, artist);
- the remote catalog is an oracle function from query text to a search
  outcome, so the resolver loop becomes a pure recursion that also records
  the requests it issues and the warnings it logs;
- the playlist service is an oracle record; the importer returns a run
  outcome (ok, propagated failure, or panic from the expect call on the
  current-user fetch) together with a trace of the requests it issued.
-/

/-- Track identifiers are opaque service-assigned strings. -/
abbrev TrackId := String

/-- A metadata record as the program reads it: optional title and artist
(lofty exposes both as `Option`; the other tag fields are never read). -/
structure Tag where
  title : Option String
  artist : Option String
deriving DecidableEq

/-- Embedding of `SearchQuery::try_from`: when both title and artist are
present the query string is `"{title} - {artist}"`; otherwise the record
yields no query (`Err(())` in the source, `.ok()`-dropped by the caller). -/
def SearchQuery.tryFrom (tag : Tag) : Option String :=
  match tag.title, tag.artist with
  | some title, some artist => some (title ++ " - " ++ artist)
  | _, _ => none

/-- Embedding of the query-building step of `main`:
`tags.into_iter().filter_map(|tag| SearchQuery::try_from(tag).ok())`. -/
def buildQueries (tags : List Tag) : List String :=
  tags.filterMap SearchQuery.tryFrom

/-- Outcome of one remote search call, as `get_track_ids` distinguishes
them: a failed request (`Err`), a successful reply that is not a
`SearchResult::Tracks` page, or a tracks page whose items each carry an
optional identifier (`FullTrack.id` is an `Option`). -/
inductive SearchOutcome where
  | err : SearchOutcome
  | other : SearchOutcome
  | tracks : List (Option TrackId) → SearchOutcome
deriving DecidableEq

/-- Output of the resolver loop: the ids pushed, the queries warned about,
and the search requests issued, each with its result limit, all in
program order. -/
structure ResolveOutput where
  ids : List TrackId
  warns : List String
  requests : List (String × Nat)
deriving DecidableEq

/-- Embedding of `get_track_ids`: one search per query with limit 1;
push the first item's id when the reply is a tracks page whose first item
has one, otherwise log a warning naming the query and move on. -/
def get_track_ids (search : String → SearchOutcome) : List String → ResolveOutput
  | [] => ⟨[], [], []⟩
  | q :: qs =>
    let rest := get_track_ids search qs
    match search q with
    | .tracks (some id :: _) => ⟨id :: rest.ids, rest.warns, (q, 1) :: rest.requests⟩
    | _ => ⟨rest.ids, q :: rest.warns, (q, 1) :: rest.requests⟩

/-- The top-result policy as the spec words it: a query resolves to the
identifier carried by the first result of its (successful) tracks reply,
and to nothing otherwise. -/
def topResultId (search : String → SearchOutcome) (q : String) : Option TrackId :=
  match search q with
  | .tracks (some id :: _) => some id
  | _ => none

/-- Fuel-driven worker for slice chunking, structurally recursive so it
computes by evaluation. With fuel at least the length of the list it
realises Rust slice `chunks n`. -/
def chunksGo (n : Nat) : Nat → List α → List (List α)
  | _, [] => []
  | 0, _ :: _ => []
  | fuel + 1, x :: xs => (x :: xs).take n :: chunksGo n fuel ((x :: xs).drop n)

/-- Embedding of Rust slice `chunks n` (for positive n): consecutive
chunks of size n, the last one possibly shorter, none empty. -/
def chunksOf (n : Nat) (l : List α) : List (List α) :=
  chunksGo n l.length l

/-- The playlist service as an oracle: the current-user call either yields
a user id or fails; playlist creation either yields a playlist id or
fails; each add-items call either succeeds or fails. -/
structure Spotify where
  current_user : Option String
  user_playlist_create : String → String → Bool → Bool → Option String
  playlist_add_items : String → List TrackId → Nat → Bool

/-- A recorded `user_playlist_create` request: owner, playlist name, and
the two visibility flags passed (`Some(false)`, `Some(false)` in the
source). -/
structure CreateReq where
  user : String
  name : String
  public : Bool
  collaborative : Bool
deriving DecidableEq

/-- A recorded `playlist_add_items` request: target playlist, the items of
the chunk, and the insertion position passed with it. -/
structure AddReq where
  playlist : String
  items : List TrackId
  position : Nat
deriving DecidableEq

/-- How a run of `add_tracks_to_spotify` ends: `ok` for `Ok(())`, `failed`
for an `Err` propagated by `?`, `panicked` for the `expect("")` on the
current-user fetch. -/
inductive RunResult where
  | ok : RunResult
  | failed : RunResult
  | panicked : RunResult
deriving DecidableEq

/-- The observable trace of one importer run: its result, how many
current-user fetches, and the create and add requests issued in order. -/
structure ImportTrace where
  result : RunResult
  userFetches : Nat
  creates : List CreateReq
  adds : List AddReq
deriving DecidableEq

/-- Embedding of the chunk loop of `add_tracks_to_spotify`: issue one
add-items request per chunk at the running position, advance the position
by 100, and propagate the first failure, skipping all later chunks. The
second component records every request issued, the failed one included. -/
def addChunks (sp : Spotify) (pid : String) : List (List TrackId) → Nat → RunResult × List AddReq
  | [], _ => (.ok, [])
  | c :: cs, pos =>
    if sp.playlist_add_items pid c pos then
      let rest := addChunks sp pid cs (pos + 100)
      (rest.1, ⟨pid, c, pos⟩ :: rest.2)
    else
      (.failed, [⟨pid, c, pos⟩])

/-- Embedding of `add_tracks_to_spotify`: fetch the current user (panic on
failure via `expect("")`), create one private non-collaborative playlist
with the given name, then add the track ids in chunks of 100 starting at
position 0. -/
def add_tracks_to_spotify (sp : Spotify) (playlist_name : String)
    (track_ids : List TrackId) : ImportTrace :=
  match sp.current_user with
  | none => ⟨.panicked, 1, [], []⟩
  | some user_id =>
    match sp.user_playlist_create user_id playlist_name false false with
    | none => ⟨.failed, 1, [⟨user_id, playlist_name, false, false⟩], []⟩
    | some pid =>
      let r := addChunks sp pid (chunksOf 100 track_ids) 0
      ⟨r.1, 1, [⟨user_id, playlist_name, false, false⟩], r.2⟩

/-- Embedding of the final `match result` in `main`: `Ok` logs a success
line, `Err` logs the generic failure line; a panic never reaches the
match, so no line is reported. -/
def mainLog (r : RunResult) (imported : Nat) : Option String :=
  match r with
  | .ok => some ("Successfully imported " ++ toString imported ++ " tracks")
  | .failed => some "Failed to import tracks"
  | .panicked => none

/-- The request list the chunk loop produces when every call succeeds:
one request per chunk, positions advancing by 100. -/
def addTrace (pid : String) : Nat → List (List TrackId) → List AddReq
  | _, [] => []
  | pos, c :: cs => ⟨pid, c, pos⟩ :: addTrace pid (pos + 100) cs

/-- A service oracle on which every remote call succeeds. -/
def allOkSpotify : Spotify :=
  ⟨some "u", fun _ _ _ _ => some "p", fun _ _ _ => true⟩

/-- A service oracle whose add-items call succeeds only at position 0, so
the second chunk request fails. -/
def failSecondSpotify : Spotify :=
  ⟨some "u", fun _ _ _ _ => some "p", fun _ _ pos => pos == 0⟩

/-- A service oracle whose current-user fetch fails. -/
def badSpotify : Spotify :=
  ⟨none, fun _ _ _ _ => some "p", fun _ _ _ => true⟩

/-- A search oracle that fails on query a and returns one identified track
on everything else. -/
def missSearch : String → SearchOutcome :=
  fun q => if q = "a" then SearchOutcome.err else SearchOutcome.tracks [some "id1"]

/-- A search oracle with a non-tracks reply on a, a first result without
an identifier on b, and an identified first result elsewhere. -/
def oddSearch : String → SearchOutcome :=
  fun q =>
    if q = "a" then SearchOutcome.other
    else if q = "b" then SearchOutcome.tracks [none, some "x"]
    else SearchOutcome.tracks [some "id2"]

theorem chunksGo_nil (n fuel : Nat) : chunksGo n fuel ([] : List α) = [] := by
  cases fuel <;> rfl

theorem chunksGo_length :
    ∀ (fuel : Nat) (l : List α), l.length ≤ fuel →
      (chunksGo 100 fuel l).length = (l.length + 99) / 100 := by
  intro fuel
  induction fuel with
  | zero =>
    intro l hl
    cases l with
    | nil => rw [chunksGo_nil]; simp
    | cons x xs => simp at hl
  | succ fuel ih =>
    intro l hl
    cases l with
    | nil => rw [chunksGo_nil]; simp
    | cons x xs =>
      have hd : ((x :: xs).drop 100).length = (x :: xs).length - 100 := by
        simp
      have hle : ((x :: xs).drop 100).length ≤ fuel := by
        simp at hl ⊢
        omega
      have := ih ((x :: xs).drop 100) hle
      simp only [chunksGo, List.length_cons, this, hd]
      have hpos : 0 < (x :: xs).length := by simp
      simp only [List.length_cons] at hpos ⊢
      omega

theorem chunksGo_flatten :
    ∀ (fuel : Nat) (l : List α), l.length ≤ fuel →
      (chunksGo 100 fuel l).flatten = l := by
  intro fuel
  induction fuel with
  | zero =>
    intro l hl
    cases l with
    | nil => rfl
    | cons x xs => simp at hl
  | succ fuel ih =>
    intro l hl
    cases l with
    | nil => rfl
    | cons x xs =>
      have hle : ((x :: xs).drop 100).length ≤ fuel := by
        simp at hl ⊢
        omega
      simp only [chunksGo, List.flatten_cons, ih ((x :: xs).drop 100) hle]
      exact List.take_append_drop 100 (x :: xs)

theorem chunksGo_size_le :
    ∀ (fuel : Nat) (l : List α) (c : List α), c ∈ chunksGo 100 fuel l →
      c.length ≤ 100 := by
  intro fuel
  induction fuel with
  | zero =>
    intro l c hc
    cases l with
    | nil => simp [chunksGo] at hc
    | cons x xs => simp [chunksGo] at hc
  | succ fuel ih =>
    intro l c hc
    cases l with
    | nil => simp [chunksGo] at hc
    | cons x xs =>
      simp only [chunksGo, List.mem_cons] at hc
      rcases hc with hc | hc
      · subst hc
        simp
      · exact ih _ _ hc

theorem chunksGo_size_full :
    ∀ (fuel : Nat) (l : List α), l.length ≤ fuel →
      ∀ (i : Nat) (h1 : i + 1 < (chunksGo 100 fuel l).length),
        ((chunksGo 100 fuel l).get ⟨i, Nat.lt_of_succ_lt h1⟩).length = 100 := by
  intro fuel
  induction fuel with
  | zero =>
    intro l hl i h1
    cases l with
    | nil => simp [chunksGo] at h1
    | cons x xs => simp at hl
  | succ fuel ih =>
    intro l hl i h1
    cases l with
    | nil => simp [chunksGo] at h1
    | cons x xs =>
      have hle : ((x :: xs).drop 100).length ≤ fuel := by
        simp at hl ⊢
        omega
      cases i with
      | zero =>
        simp only [chunksGo, List.length_cons] at h1
        have hne : chunksGo 100 fuel ((x :: xs).drop 100) ≠ [] := by
          intro he
          rw [he] at h1
          simp at h1
        have hlong : 100 < (x :: xs).length := by
          by_contra hko
          push_neg at hko
          have : (x :: xs).drop 100 = [] := List.drop_eq_nil_of_le hko
          rw [this, chunksGo_nil] at hne
          exact hne rfl
        have hstep : chunksGo 100 (fuel + 1) (x :: xs) =
            (x :: xs).take 100 :: chunksGo 100 fuel ((x :: xs).drop 100) := rfl
        simp only [hstep, List.get_eq_getElem, List.getElem_cons_zero, List.length_take]
        omega
      | succ i =>
        simp only [chunksGo, List.length_cons] at h1
        have h2 : i + 1 < (chunksGo 100 fuel ((x :: xs).drop 100)).length := by
          omega
        have := ih ((x :: xs).drop 100) hle i h2
        simpa [chunksGo] using this

theorem chunksOf_length (l : List α) :
    (chunksOf 100 l).length = (l.length + 99) / 100 :=
  chunksGo_length l.length l (Nat.le_refl _)

theorem chunksOf_flatten (l : List α) : (chunksOf 100 l).flatten = l :=
  chunksGo_flatten l.length l (Nat.le_refl _)

theorem chunksOf_size_le (l : List α) (c : List α) (hc : c ∈ chunksOf 100 l) :
    c.length ≤ 100 :=
  chunksGo_size_le l.length l c hc

theorem chunksOf_size_full (l : List α) (i : Nat)
    (h1 : i + 1 < (chunksOf 100 l).length) :
    ((chunksOf 100 l).get ⟨i, Nat.lt_of_succ_lt h1⟩).length = 100 :=
  chunksGo_size_full l.length l (Nat.le_refl _) i h1

theorem addTrace_length (pid : String) :
    ∀ (cs : List (List TrackId)) (pos : Nat),
      (addTrace pid pos cs).length = cs.length := by
  intro cs
  induction cs with
  | nil => intro pos; rfl
  | cons c cs ih =>
    intro pos
    simp only [addTrace, List.length_cons, ih]

theorem addTrace_map_items (pid : String) :
    ∀ (cs : List (List TrackId)) (pos : Nat),
      (addTrace pid pos cs).map AddReq.items = cs := by
  intro cs
  induction cs with
  | nil => intro pos; rfl
  | cons c cs ih =>
    intro pos
    simp only [addTrace, List.map_cons, ih]

theorem addTrace_position (pid : String) :
    ∀ (cs : List (List TrackId)) (pos i : Nat)
      (hi : i < (addTrace pid pos cs).length),
      ((addTrace pid pos cs).get ⟨i, hi⟩).position = pos + 100 * i := by
  intro cs
  induction cs with
  | nil =>
    intro pos i hi
    simp [addTrace] at hi
  | cons c cs ih =>
    intro pos i hi
    cases i with
    | zero => simp [addTrace]
    | succ i =>
      have hi2 : i < (addTrace pid (pos + 100) cs).length := by
        simpa [addTrace] using hi
      have := ih (pos + 100) i hi2
      calc ((addTrace pid pos (c :: cs)).get ⟨i + 1, hi⟩).position
          = ((addTrace pid (pos + 100) cs).get ⟨i, hi2⟩).position := by
            simp [addTrace]
        _ = pos + 100 + 100 * i := this
        _ = pos + 100 * (i + 1) := by ring

theorem addChunks_all_ok (sp : Spotify) (pid : String)
    (h : ∀ (it : List TrackId) (p : Nat), sp.playlist_add_items pid it p = true) :
    ∀ (cs : List (List TrackId)) (pos : Nat),
      addChunks sp pid cs pos = (RunResult.ok, addTrace pid pos cs) := by
  intro cs
  induction cs with
  | nil => intro pos; rfl
  | cons c cs ih =>
    intro pos
    simp only [addChunks, h, if_true, ih, addTrace]

theorem addChunks_fail (sp : Spotify) (pid : String) :
    ∀ (cs : List (List TrackId)) (pos k : Nat) (hk : k < cs.length),
      (∀ (i : Nat) (hi : i < k),
        sp.playlist_add_items pid (cs.get ⟨i, Nat.lt_trans hi hk⟩) (pos + 100 * i) = true) →
      sp.playlist_add_items pid (cs.get ⟨k, hk⟩) (pos + 100 * k) = false →
      addChunks sp pid cs pos = (RunResult.failed, addTrace pid pos (cs.take (k + 1))) := by
  intro cs
  induction cs with
  | nil =>
    intro pos k hk hs hf
    exact absurd hk (Nat.not_lt_zero k)
  | cons c cs ih =>
    intro pos k hk hs hf
    cases k with
    | zero =>
      have hf0 : sp.playlist_add_items pid c pos = false := by
        simpa using hf
      simp [addChunks, hf0, addTrace]
    | succ k =>
      have hs0 : sp.playlist_add_items pid c pos = true := by
        have := hs 0 (Nat.succ_pos k)
        simpa using this
      have hk2 : k < cs.length := Nat.lt_of_succ_lt_succ hk
      have hs2 : ∀ (i : Nat) (hi : i < k),
          sp.playlist_add_items pid (cs.get ⟨i, Nat.lt_trans hi hk2⟩) (pos + 100 + 100 * i) = true := by
        intro i hi
        have := hs (i + 1) (Nat.succ_lt_succ hi)
        have he : pos + 100 * (i + 1) = pos + 100 + 100 * i := by ring
        rw [he] at this
        simpa using this
      have hf2 : sp.playlist_add_items pid (cs.get ⟨k, hk2⟩) (pos + 100 + 100 * k) = false := by
        have he : pos + 100 * (k + 1) = pos + 100 + 100 * k := by ring
        rw [he] at hf
        simpa using hf
      have := ih (pos + 100) k hk2 hs2 hf2
      simp [addChunks, hs0, this, addTrace]

theorem run_all_ok (sp : Spotify) (name : String) (ids : List TrackId)
    (u pid : String)
    (hu : sp.current_user = some u)
    (hc : sp.user_playlist_create u name false false = some pid)
    (ha : ∀ (it : List TrackId) (p : Nat), sp.playlist_add_items pid it p = true) :
    add_tracks_to_spotify sp name ids =
      ⟨RunResult.ok, 1, [⟨u, name, false, false⟩], addTrace pid 0 (chunksOf 100 ids)⟩ := by
  simp [add_tracks_to_spotify, hu, hc, addChunks_all_ok sp pid ha]

theorem run_fail_at (sp : Spotify) (name : String) (ids : List TrackId)
    (u pid : String) (k : Nat)
    (hu : sp.current_user = some u)
    (hc : sp.user_playlist_create u name false false = some pid)
    (hk : k < (chunksOf 100 ids).length)
    (hs : ∀ (i : Nat) (hi : i < k),
      sp.playlist_add_items pid ((chunksOf 100 ids).get ⟨i, Nat.lt_trans hi hk⟩) (100 * i) = true)
    (hf : sp.playlist_add_items pid ((chunksOf 100 ids).get ⟨k, hk⟩) (100 * k) = false) :
    add_tracks_to_spotify sp name ids =
      ⟨RunResult.failed, 1, [⟨u, name, false, false⟩],
        addTrace pid 0 ((chunksOf 100 ids).take (k + 1))⟩ := by
  have hs1 : ∀ (i : Nat) (hi : i < k),
      sp.playlist_add_items pid ((chunksOf 100 ids).get ⟨i, Nat.lt_trans hi hk⟩) (0 + 100 * i) = true := by
    intro i hi
    simpa using hs i hi
  have hf1 : sp.playlist_add_items pid ((chunksOf 100 ids).get ⟨k, hk⟩) (0 + 100 * k) = false := by
    simpa using hf
  have := addChunks_fail sp pid (chunksOf 100 ids) 0 k hk hs1 hf1
  simp [add_tracks_to_spotify, hu, hc, this]

theorem get_track_ids_ids (search : String → SearchOutcome) :
    ∀ (qs : List String),
      (get_track_ids search qs).ids = qs.filterMap (topResultId search) := by
  intro qs
  induction qs with
  | nil => rfl
  | cons q qs ih =>
    cases hq : search q with
    | err => simp [get_track_ids, topResultId, hq, ih]
    | other => simp [get_track_ids, topResultId, hq, ih]
    | tracks items =>
      cases items with
      | nil => simp [get_track_ids, topResultId, hq, ih]
      | cons t rest =>
        cases t with
        | none => simp [get_track_ids, topResultId, hq, ih]
        | some id => simp [get_track_ids, topResultId, hq, ih]

theorem get_track_ids_requests (search : String → SearchOutcome) :
    ∀ (qs : List String),
      (get_track_ids search qs).requests = qs.map (fun q => (q, 1)) := by
  intro qs
  induction qs with
  | nil => rfl
  | cons q qs ih =>
    cases hq : search q with
    | err => simp [get_track_ids, hq, ih]
    | other => simp [get_track_ids, hq, ih]
    | tracks items =>
      cases items with
      | nil => simp [get_track_ids, hq, ih]
      | cons t rest =>
        cases t with
        | none => simp [get_track_ids, hq, ih]
        | some id => simp [get_track_ids, hq, ih]

theorem get_track_ids_miss (search : String → SearchOutcome)
    (q : String) (qs : List String)
    (h : topResultId search q = none) :
    get_track_ids search (q :: qs) =
      ⟨(get_track_ids search qs).ids,
       q :: (get_track_ids search qs).warns,
       (q, 1) :: (get_track_ids search qs).requests⟩ := by
  cases hq : search q with
  | err => simp [get_track_ids, hq]
  | other => simp [get_track_ids, hq]
  | tracks items =>
    cases items with
    | nil => simp [get_track_ids, hq]
    | cons t rest =>
      cases t with
      | none => simp [get_track_ids, hq]
      | some id =>
        rw [topResultId, hq] at h
        simp at h

theorem get_track_ids_provenance (search : String → SearchOutcome) :
    ∀ (qs : List String) (id : TrackId), id ∈ (get_track_ids search qs).ids →
      ∃ q, q ∈ qs ∧ ∃ rest, search q = SearchOutcome.tracks (some id :: rest) := by
  intro qs
  induction qs with
  | nil =>
    intro id hid
    simp [get_track_ids] at hid
  | cons q qs ih =>
    intro id hid
    cases hq : search q with
    | err =>
      simp only [get_track_ids, hq] at hid
      obtain ⟨q2, hq2, hw⟩ := ih id hid
      exact ⟨q2, List.mem_cons_of_mem q hq2, hw⟩
    | other =>
      simp only [get_track_ids, hq] at hid
      obtain ⟨q2, hq2, hw⟩ := ih id hid
      exact ⟨q2, List.mem_cons_of_mem q hq2, hw⟩
    | tracks items =>
      cases items with
      | nil =>
        simp only [get_track_ids, hq] at hid
        obtain ⟨q2, hq2, hw⟩ := ih id hid
        exact ⟨q2, List.mem_cons_of_mem q hq2, hw⟩
      | cons t rest =>
        cases t with
        | none =>
          simp only [get_track_ids, hq] at hid
          obtain ⟨q2, hq2, hw⟩ := ih id hid
          exact ⟨q2, List.mem_cons_of_mem q hq2, hw⟩
        | some id2 =>
          simp only [get_track_ids, hq, List.mem_cons] at hid
          rcases hid with hid | hid
          · subst hid
            exact ⟨q, List.mem_cons_self q qs, rest, hq⟩
          · obtain ⟨q2, hq2, hw⟩ := ih id hid
            exact ⟨q2, List.mem_cons_of_mem q hq2, hw⟩


/-- C1: with the user fetch, the playlist creation and every add-items
call succeeding, the importer issues exactly ceil(L/100) add-items
requests over consecutive chunks of the resolved list, each chunk of size
100 except possibly the last, and the position passed with the i-th chunk
is 100 * i. -/
theorem C1_chunk_batching (sp : Spotify) (name : String) (ids : List TrackId)
    (u pid : String)
    (hu : sp.current_user = some u)
    (hc : sp.user_playlist_create u name false false = some pid)
    (ha : ∀ (it : List TrackId) (p : Nat), sp.playlist_add_items pid it p = true) :
    (add_tracks_to_spotify sp name ids).adds.map AddReq.items = chunksOf 100 ids
    ∧ (chunksOf 100 ids).flatten = ids
    ∧ (add_tracks_to_spotify sp name ids).adds.length = (ids.length + 99) / 100
    ∧ (∀ (i : Nat) (hi : i < (add_tracks_to_spotify sp name ids).adds.length),
        ((add_tracks_to_spotify sp name ids).adds.get ⟨i, hi⟩).position = 100 * i)
    ∧ (∀ c ∈ chunksOf 100 ids, c.length ≤ 100)
    ∧ (∀ (i : Nat) (hi : i + 1 < (chunksOf 100 ids).length),
        ((chunksOf 100 ids).get ⟨i, Nat.lt_of_succ_lt hi⟩).length = 100) := by
  have hrun := run_all_ok sp name ids u pid hu hc ha
  have hadds : (add_tracks_to_spotify sp name ids).adds =
      addTrace pid 0 (chunksOf 100 ids) := by rw [hrun]
  refine ⟨?_, chunksOf_flatten ids, ?_, ?_,
    fun c hcm => chunksOf_size_le ids c hcm,
    fun i hi => chunksOf_size_full ids i hi⟩
  · rw [hadds, addTrace_map_items]
  · rw [hadds, addTrace_length, chunksOf_length]
  · intro i
    rw [hadds]
    intro hi
    rw [addTrace_position]
    omega

/-- C1 witness: 150 resolved tracks on an all-success oracle yield two
add-items requests whose chunks flatten back to the input. -/
theorem C1_chunk_batching_witness :
    (add_tracks_to_spotify allOkSpotify "Imported" (List.replicate 150 "t")).adds.length = 2
    ∧ ((add_tracks_to_spotify allOkSpotify "Imported" (List.replicate 150 "t")).adds.map
        AddReq.items).flatten = List.replicate 150 "t" := by
  have h := C1_chunk_batching allOkSpotify "Imported" (List.replicate 150 "t") "u" "p"
    rfl rfl (fun it p => rfl)
  constructor
  · rw [h.2.2.1]
    norm_num
  · rw [h.1, h.2.1]

/-- C2: the resolver's output is, in input order, the identifier of the
first result of each query whose tracks reply carries one; it issues
exactly one request per query with limit 1, and unmatched queries are
simply absent (filterMap, no placeholders). -/
theorem C2_top_result_policy (search : String → SearchOutcome) (qs : List String) :
    (get_track_ids search qs).ids = qs.filterMap (topResultId search)
    ∧ (get_track_ids search qs).requests = qs.map (fun q => (q, 1)) :=
  ⟨get_track_ids_ids search qs, get_track_ids_requests search qs⟩

/-- C3: a query whose search fails or returns zero results is warned
about by name, contributes nothing to the output, is requested exactly
once, and the remaining queries are still processed. -/
theorem C3_miss_handling (search : String → SearchOutcome) (q : String) (qs : List String)
    (h : search q = SearchOutcome.err ∨ search q = SearchOutcome.tracks []) :
    get_track_ids search (q :: qs) =
      ⟨(get_track_ids search qs).ids,
       q :: (get_track_ids search qs).warns,
       (q, 1) :: (get_track_ids search qs).requests⟩
    ∧ q ∈ (get_track_ids search (q :: qs)).warns := by
  have htop : topResultId search q = none := by
    rcases h with h | h <;> simp [topResultId, h]
  have he := get_track_ids_miss search q qs htop
  refine ⟨he, ?_⟩
  rw [he]
  simp

/-- C3 witness: the failing query a is warned about and omitted while the
following query b still resolves. -/
theorem C3_miss_handling_witness :
    get_track_ids missSearch ["a", "b"] =
      ⟨["id1"], ["a"], [("a", 1), ("b", 1)]⟩
    ∧ "a" ∈ (get_track_ids missSearch ["a", "b"]).warns := by
  have h := C3_miss_handling missSearch "a" ["b"] (Or.inl (by decide))
  refine ⟨?_, h.2⟩
  rw [h.1]
  decide

/-- C4: a record with both title and artist yields exactly the query
string title ++ " - " ++ artist. -/
theorem C4_query_format (title artist : String) :
    SearchQuery.tryFrom ⟨some title, some artist⟩ = some (title ++ " - " ++ artist) := rfl

/-- C5: a record missing title or artist yields no query and is silently
dropped, and query order follows record order minus the drops. -/
theorem C5_silent_drop (tag : Tag) (tags : List Tag)
    (h : tag.title = none ∨ tag.artist = none) :
    SearchQuery.tryFrom tag = none
    ∧ buildQueries (tag :: tags) = buildQueries tags
    ∧ ∀ (t : Tag) (ts : List Tag) (q : String),
        SearchQuery.tryFrom t = some q → buildQueries (t :: ts) = q :: buildQueries ts := by
  have h1 : SearchQuery.tryFrom tag = none := by
    obtain ⟨ti, ar⟩ := tag
    cases ti with
    | none => cases ar <;> rfl
    | some t0 =>
      cases ar with
      | none => rfl
      | some a0 => rcases h with h | h <;> simp at h
  refine ⟨h1, ?_, ?_⟩
  · simp [buildQueries, List.filterMap_cons, h1]
  · intro t ts q hq
    simp [buildQueries, List.filterMap_cons, hq]

/-- C5 witness: a record without a title is dropped while the record after
it still produces its query. -/
theorem C5_silent_drop_witness :
    SearchQuery.tryFrom ⟨none, some "x"⟩ = none
    ∧ buildQueries [⟨none, some "x"⟩, ⟨some "t", some "a"⟩] =
        buildQueries [(⟨some "t", some "a"⟩ : Tag)] := by
  have h := C5_silent_drop ⟨none, some "x"⟩ [⟨some "t", some "a"⟩] (Or.inl rfl)
  exact ⟨h.1, h.2.1⟩

/-- C6: when the add-items call fails at chunk k after the first k chunks
succeeded, the importer propagates the failure, the request trace is
exactly chunks 0..k each issued once at positions 0, 100, ..., and no
later chunk is requested. -/
theorem C6_abort_on_chunk_failure (sp : Spotify) (name : String) (ids : List TrackId)
    (u pid : String) (k : Nat)
    (hu : sp.current_user = some u)
    (hc : sp.user_playlist_create u name false false = some pid)
    (hk : k < (chunksOf 100 ids).length)
    (hs : ∀ (i : Nat) (hi : i < k),
      sp.playlist_add_items pid ((chunksOf 100 ids).get ⟨i, Nat.lt_trans hi hk⟩) (100 * i) = true)
    (hf : sp.playlist_add_items pid ((chunksOf 100 ids).get ⟨k, hk⟩) (100 * k) = false) :
    (add_tracks_to_spotify sp name ids).result = RunResult.failed
    ∧ (add_tracks_to_spotify sp name ids).adds.map AddReq.items = (chunksOf 100 ids).take (k + 1)
    ∧ (add_tracks_to_spotify sp name ids).adds.length = k + 1
    ∧ ∀ (i : Nat) (hi : i < (add_tracks_to_spotify sp name ids).adds.length),
        ((add_tracks_to_spotify sp name ids).adds.get ⟨i, hi⟩).position = 100 * i := by
  have hrun := run_fail_at sp name ids u pid k hu hc hk hs hf
  have hadds : (add_tracks_to_spotify sp name ids).adds =
      addTrace pid 0 ((chunksOf 100 ids).take (k + 1)) := by rw [hrun]
  refine ⟨by rw [hrun], ?_, ?_, ?_⟩
  · rw [hadds, addTrace_map_items]
  · rw [hadds, addTrace_length, List.length_take]
    omega
  · intro i
    rw [hadds]
    intro hi
    rw [addTrace_position]
    omega

set_option maxRecDepth 40000 in
/-- C6 witness: with 101 resolved tracks and an oracle failing from
position 100 on, the run fails after exactly the two requests for chunks
0 and 1 and retries nothing. -/
theorem C6_abort_on_chunk_failure_witness :
    (add_tracks_to_spotify failSecondSpotify "Imported" (List.replicate 101 "t")).result =
      RunResult.failed
    ∧ (add_tracks_to_spotify failSecondSpotify "Imported" (List.replicate 101 "t")).adds.length = 2
    ∧ (add_tracks_to_spotify failSecondSpotify "Imported" (List.replicate 101 "t")).adds.map
        AddReq.items = (chunksOf 100 (List.replicate 101 "t")).take 2 := by
  have hk : 1 < (chunksOf 100 (List.replicate 101 "t")).length := by decide
  have h := C6_abort_on_chunk_failure failSecondSpotify "Imported" (List.replicate 101 "t")
    "u" "p" 1 rfl rfl hk
    (fun i hi => by
      have h0 : i = 0 := Nat.lt_one_iff.mp hi
      subst h0
      rfl)
    rfl
  exact ⟨h.1, h.2.2.1, h.2.1⟩

/-- C7: on an empty resolved list the importer still fetches the user and
creates the playlist, issues zero add-items requests, and succeeds. -/
theorem C7_empty_import (sp : Spotify) (name : String) (u pid : String)
    (hu : sp.current_user = some u)
    (hc : sp.user_playlist_create u name false false = some pid) :
    add_tracks_to_spotify sp name [] =
      ⟨RunResult.ok, 1, [⟨u, name, false, false⟩], []⟩ := by
  simp [add_tracks_to_spotify, hu, hc, chunksOf, chunksGo_nil, addChunks]

/-- C7 witness: the empty import on the all-success oracle creates the
playlist and ends successfully with no add request. -/
theorem C7_empty_import_witness :
    add_tracks_to_spotify allOkSpotify "Imported" [] =
      ⟨RunResult.ok, 1, [⟨"u", "Imported", false, false⟩], []⟩ :=
  C7_empty_import allOkSpotify "Imported" "u" "p" rfl rfl

/-- C8: every run with a fetched user issues exactly one playlist-create
request, owned by that user, with the given name, public = false and
collaborative = false. -/
theorem C8_playlist_attrs (sp : Spotify) (name : String) (ids : List TrackId)
    (u : String) (hu : sp.current_user = some u) :
    (add_tracks_to_spotify sp name ids).creates = [⟨u, name, false, false⟩]
    ∧ (add_tracks_to_spotify sp name ids).userFetches = 1 := by
  cases hc : sp.user_playlist_create u name false false with
  | none => simp [add_tracks_to_spotify, hu, hc]
  | some pid => simp [add_tracks_to_spotify, hu, hc]

/-- C8 witness: one private, non-collaborative create request named
Imported and owned by u on the all-success oracle. -/
theorem C8_playlist_attrs_witness :
    (add_tracks_to_spotify allOkSpotify "Imported" ["a"]).creates =
      [⟨"u", "Imported", false, false⟩] :=
  (C8_playlist_attrs allOkSpotify "Imported" ["a"] "u" rfl).1

/-- C9 counterexample: when the current-user fetch fails the run ends in
a panic from expect, not in the Err the importer's result would carry, so
the generic failure message of main is never produced. -/
theorem C9_counterexample :
    (add_tracks_to_spotify badSpotify "Imported" ["t"]).result = RunResult.panicked
    ∧ (add_tracks_to_spotify badSpotify "Imported" ["t"]).result ≠ RunResult.failed
    ∧ mainLog (add_tracks_to_spotify badSpotify "Imported" ["t"]).result 1 ≠
        some "Failed to import tracks" := by
  decide

/-- C9 amended: if the current-user fetch fails the run terminates before
any playlist is created and before any add request, but by panicking
(expect on the fetch), not through the importer's success/failure result,
and main reports no message at all. -/
theorem C9_panic_before_create (sp : Spotify) (name : String) (ids : List TrackId)
    (hu : sp.current_user = none) :
    add_tracks_to_spotify sp name ids = ⟨RunResult.panicked, 1, [], []⟩
    ∧ mainLog (add_tracks_to_spotify sp name ids).result ids.length = none := by
  constructor
  · simp [add_tracks_to_spotify, hu]
  · simp [add_tracks_to_spotify, hu, mainLog]

/-- C9 amended witness: the failing-fetch oracle panics with an empty
trace. -/
theorem C9_panic_before_create_witness :
    add_tracks_to_spotify badSpotify "Imported" ["t"] =
      ⟨RunResult.panicked, 1, [], []⟩ :=
  (C9_panic_before_create badSpotify "Imported" ["t"] rfl).1

/-- C10: a successful reply that is not a tracks page, or whose first
track carries no identifier, is treated exactly like a miss (warned and
omitted), and every identifier in the output comes from a first result
that had one. -/
theorem C10_degenerate_results (search : String → SearchOutcome) (q : String) (qs : List String)
    (h : search q = SearchOutcome.other
      ∨ ∃ rest, search q = SearchOutcome.tracks (none :: rest)) :
    get_track_ids search (q :: qs) =
      ⟨(get_track_ids search qs).ids,
       q :: (get_track_ids search qs).warns,
       (q, 1) :: (get_track_ids search qs).requests⟩
    ∧ ∀ id ∈ (get_track_ids search (q :: qs)).ids,
        ∃ q2, q2 ∈ q :: qs ∧ ∃ rest, search q2 = SearchOutcome.tracks (some id :: rest) := by
  have htop : topResultId search q = none := by
    rcases h with h | ⟨rest, h⟩ <;> simp [topResultId, h]
  exact ⟨get_track_ids_miss search q qs htop,
    fun id hid => get_track_ids_provenance search (q :: qs) id hid⟩

/-- C10 witness: a non-tracks reply on a and an id-less first result on b
are both warned and omitted while c resolves. -/
theorem C10_degenerate_results_witness :
    get_track_ids oddSearch ["a", "b", "c"] =
      ⟨["id2"], ["a", "b"], [("a", 1), ("b", 1), ("c", 1)]⟩ := by
  have h := C10_degenerate_results oddSearch "a" ["b", "c"] (Or.inl (by decide))
  rw [h.1]
  decide
